import Mathlib

/-!
Verification of `homeserver_version_bot.py` against its specification.

The Python source is shallowly embedded: Python strings become `String`,
Python `None`-able values become `Option`, and code that can raise an
exception returns `Except Unit`.  Network effects are modelled by passing
the remote response explicitly as an argument.
-/

namespace HomeserverVersionBot

/-- The fixed federation-tester base URL (`FEDTEST_URL`, line 15 of the source). -/
def FEDTEST_URL : String :=
  "https://federationtester.matrix.org/api/report?server_name="

/-- Python `str.split(sep)` for a single-character separator, on the
character list of the string.  `''.split(':') = ['']`, `'a:b'.split(':')
= ['a','b']`, `'a::b'.split(':') = ['a','','b']`. -/
def pySplit (sep : Char) : List Char → List (List Char)
  | [] => [[]]
  | c :: cs =>
    let rest := pySplit sep cs
    if c = sep then [] :: rest
    else
      match rest with
      | [] => [[c]]
      | p :: ps => (c :: p) :: ps

/-- `member_server(user_id)` (lines 18–30): raises `IndexError` on the
empty string (`user_id[0]`), returns `None` when the first character is
not `'@'`, and otherwise returns `user_id.split(':')[1]`, raising
`IndexError` when the split has fewer than two fields. -/
def member_server (user_id : String) : Except Unit (Option String) :=
  match user_id.data with
  | [] => .error ()
  | c :: _ =>
    if c ≠ '@' then .ok none
    else
      match (pySplit ':' user_id.data).get? 1 with
      | none => .error ()
      | some s => .ok (some ⟨s⟩)

/-- What the spec's words describe: the substring of `s` after the first
`'@'` and after the first `':'`; no value when `s` does not start with
`'@'`.  Used only to compare the spec against the source. -/
def member_server_specmodel (s : String) : Option String :=
  match s.data with
  | [] => none
  | c :: cs =>
    if c = '@' then some ⟨(cs.dropWhile (· ≠ ':')).drop 1⟩ else none

/-- The outcome of the federation-tester request, as seen by
`query_homeserver_version`: either the request timed out, or a response
arrived carrying the `FederationOK` boolean and, optionally, the string
at the nested `Version.version` path. -/
inductive FedResponse where
  | timeout : FedResponse
  | ok (federationOK : Bool) (version : Option String) : FedResponse
  deriving DecidableEq

/-- The `timeout=` argument passed to `requests.get` at line 43 of the
source (`requests` interprets it in seconds). -/
def REQUEST_TIMEOUT : Nat := 10000

/-- `query_homeserver_version(server)` (lines 33–56), as a function of the
remote outcome: `'[TIMEOUT]'` on timeout, `'[OFFLINE]'` when
`FederationOK` is false, `'[ERROR]'` when `Version.version` is absent
(the `KeyError` branch), and otherwise the version string itself. -/
def query_homeserver_version : FedResponse → String
  | .timeout => "[TIMEOUT]"
  | .ok federationOK version =>
    if !federationOK then "[OFFLINE]"
    else
      match version with
      | none => "[ERROR]"
      | some v => v

/-- Condition of the `[TIMEOUT]` branch: the request timed out. -/
def timeoutCase (r : FedResponse) : Prop := r = .timeout

/-- Condition of the `[OFFLINE]` branch: a response with `FederationOK` false. -/
def offlineCase (r : FedResponse) : Prop := ∃ v, r = .ok false v

/-- Condition of the `[ERROR]` branch: `FederationOK` true, version absent. -/
def errorCase (r : FedResponse) : Prop := r = .ok true none

/-- Condition of the real-version branch: `FederationOK` true, version present. -/
def versionCase (r : FedResponse) : Prop := ∃ v, r = .ok true (some v)

/-- `map(member_server, ...)` as consumed in order by `set(...)` in
`main` (line 215): an `IndexError` raised while parsing any member
propagates. -/
def mapMemberServer : List String → Except Unit (List (Option String))
  | [] => .ok []
  | m :: ms =>
    match member_server m with
    | .error e => .error e
    | .ok o =>
      match mapMemberServer ms with
      | .error e => .error e
      | .ok rest => .ok (o :: rest)

/-- Python `sorted` on a list of `Optional[str]` values drawn from a set:
with at least two elements, any `None` is compared against another
element and `sorted` raises `TypeError`; a pure string list is sorted
lexicographically by code point. -/
def pySortedOpt (l : List (Option String)) : Except Unit (List (Option String)) :=
  if l.length ≤ 1 then .ok l
  else if l.any (fun o => o.isNone) then .error ()
  else .ok (((l.filterMap id).insertionSort (fun a b => a ≤ b)).map some)

/-- The server-derivation step of `main` (lines 213–217):
`sorted(list(set(map(member_server, members)) - set(dead_servers)))`.
The set is modelled by `dedup`; the subtraction removes strings that
occur in `dead_servers` (the `None` produced by a non-`@` member is not
a string and is never removed by it). -/
def derive_servers (members dead_servers : List String) :
    Except Unit (List (Option String)) :=
  match mapMemberServer members with
  | .error e => .error e
  | .ok parsed =>
    pySortedOpt
      ((parsed.dedup).filter (fun o => decide (o ∉ dead_servers.map some)))

/-- One entry of the `ServerList` (line 219–226): a dict with `host` and
`version` keys. -/
structure Record where
  host : String
  version : String
  deriving DecidableEq

/-- Python `str.ljust(width, fill)`: pad on the right with `fill` up to
`width`; a string at least `width` long is returned unchanged. -/
def ljust (s : String) (w : Nat) (fill : Char) : String :=
  s ++ ⟨List.replicate (w - s.length) fill⟩

/-- The header row of the table (lines 182–183). -/
def headerRow (ms mv : Nat) : String :=
  "| " ++ ljust "Homeserver" ms ' ' ++ " | " ++ ljust "Version" mv ' ' ++ " |\\n"

/-- The separator row of the table (lines 184–185). -/
def sepRow (ms mv : Nat) : String :=
  "| " ++ ljust "" ms '-' ++ " | " ++ ljust "" mv '-' ++ " |\\n"

/-- One data row of the table (lines 186–189): host cell padded to the
host-column width, then the version rendered as a hyperlink to the
federation-tester report, padded to the version-column width. -/
def dataRow (ms mv : Nat) (r : Record) : String :=
  "| " ++ ljust r.host ms ' ' ++ " | "
    ++ "<a href=\\\"" ++ FEDTEST_URL ++ r.host ++ "\\\">" ++ r.version ++ "</a>"
    ++ ljust "" (mv - r.version.length) ' ' ++ " |\\n"

/-- Python `max` over a non-empty list of naturals, with `0` for the
empty list (`serverList_str` only applies it to non-empty lists; the
empty case is caught separately, matching the `ValueError` that
`max(())` raises). -/
def maxNat (l : List Nat) : Nat := l.foldr Nat.max 0

/-- `ServerList.__str__` (lines 171–191): raises `ValueError` on an empty
list (from `max` over an empty sequence), otherwise renders header,
separator, and one row per record, in list order. -/
def serverList_str (records : List Record) : Except Unit String :=
  match records with
  | [] => .error ()
  | _ :: _ =>
    let maxlen_server :=
      Nat.max "Homeserver".length (maxNat (records.map fun r => r.host.length))
    let maxlen_version :=
      Nat.max "Version".length (maxNat (records.map fun r => r.version.length))
    .ok (headerRow maxlen_server maxlen_version
      ++ sepRow maxlen_server maxlen_version
      ++ String.join (records.map (dataRow maxlen_server maxlen_version)))

/-- How a Python f-string renders `self.token`: the string itself, or
`"None"` for the `None` sentinel. -/
def pyFormat : Option String → String
  | none => "None"
  | some s => s

/-- The mutable state of the `Matrix` class (lines 64–73). -/
structure Matrix where
  clienturl : String
  token : Option String
  room_id : Option String
  room_url : Option String
  deriving DecidableEq

/-- `Matrix.__init__(endpoint)` (lines 64–73). -/
def Matrix.init (endpoint : String) : Matrix :=
  { clienturl := endpoint ++ "/_matrix/client/r0"
    token := none
    room_id := none
    room_url := none }

/-- The HTTP request issued by one `api_call`. -/
structure ApiRequest where
  method : String
  url : String
  headers : List (String × String)
  data : Option String
  deriving DecidableEq

/-- The HTTP response the transport hands back. -/
structure HttpResponse where
  status_code : Nat
  text : String
  deriving DecidableEq

/-- `Matrix.api_call` (lines 76–92), as a function of the response: the
issued request always carries the bearer header built from the current
token; a non-200 status yields the empty string (after logging), a 200
status yields the response body.  The function is total: it never
raises. -/
def Matrix.api_call (m : Matrix) (method url : String) (data : Option String)
    (resp : HttpResponse) : ApiRequest × String :=
  ({ method := method
     url := url
     headers := [("Authorization", "Bearer " ++ pyFormat m.token)]
     data := data },
   if resp.status_code ≠ 200 then "" else resp.text)

/-- The JSON body submitted by `login` (lines 106–112), braces written as
escapes. -/
def login_data (flow username password : String) : String :=
  "\x7b \"type\": \"" ++ flow ++ "\",\"user\": \"" ++ username
    ++ "\",\"password\": \"" ++ password ++ "\" \x7d"

/-- The credential-submission call inside `Matrix.login` (lines 106–112):
it goes through `api_call` on the session as it stands, before any token
has been stored. -/
def Matrix.login_submit (m : Matrix) (username password flow : String)
    (resp : HttpResponse) : ApiRequest × String :=
  m.api_call "POST" (m.clienturl ++ "/login") (some (login_data flow username password)) resp

/-- `Matrix.join_room(room_id)` (lines 117–131): sets `room_id` and
`room_url` first, then issues the join request through `api_call`
(whose result is discarded, whatever the status).  Returns the updated
session and the issued request. -/
def Matrix.join_room (m : Matrix) (room_id : String) (resp : HttpResponse) :
    Matrix × ApiRequest :=
  let m1 : Matrix :=
    { m with
      room_id := some room_id
      room_url := some (m.clienturl ++ "/rooms/" ++ room_id) }
  let call := m1.api_call "POST" (m.clienturl ++ "/rooms/" ++ room_id ++ "/join")
    (some "\x7b\x7d") resp
  (m1, call.1)

/-! ## Helper lemmas -/

/-- Splitting a separator-free list yields the list itself as the only field. -/
theorem pySplit_no_sep (sep : Char) (l : List Char) (h : sep ∉ l) :
    pySplit sep l = [l] := by
  induction l with
  | nil => rfl
  | cons c cs ih =>
    have hc : ¬ (c = sep) := fun hh => h (hh ▸ List.mem_cons_self _ _)
    have hcs : sep ∉ cs := fun hm => h (List.mem_cons_of_mem _ hm)
    simp only [pySplit]
    rw [ih hcs]
    simp [hc]

/-- Splitting past a separator-free prefix peels off that prefix as the
first field. -/
theorem pySplit_sep_append (sep : Char) (l r : List Char) (h : sep ∉ l) :
    pySplit sep (l ++ sep :: r) = l :: pySplit sep r := by
  induction l with
  | nil => simp [pySplit]
  | cons c cs ih =>
    have hc : ¬ (c = sep) := fun hh => h (hh ▸ List.mem_cons_self _ _)
    have hcs : sep ∉ cs := fun hm => h (List.mem_cons_of_mem _ hm)
    simp only [List.cons_append, pySplit, List.append_eq]
    rw [ih hcs]
    simp [hc]

/-- When every member id parses to a server name, the mapping step
succeeds and yields only `some` values. -/
theorem mapMemberServer_ok {members : List String}
    (h : ∀ m ∈ members, ∃ s, member_server m = .ok (some s)) :
    ∃ ps : List (Option String), mapMemberServer members = .ok ps
      ∧ ∀ o ∈ ps, ∃ s, o = some s := by
  induction members with
  | nil => exact ⟨[], rfl, by simp⟩
  | cons m ms ih =>
    obtain ⟨s, hs⟩ := h m (List.mem_cons_self _ _)
    obtain ⟨ps, hps, hall⟩ := ih (fun x hx => h x (List.mem_cons_of_mem _ hx))
    refine ⟨some s :: ps, ?_, ?_⟩
    · simp only [mapMemberServer]
      rw [hs, hps]
    · intro o ho
      rcases List.mem_cons.mp ho with h1 | h2
      · exact ⟨s, h1⟩
      · exact hall o h2

/-- `pySortedOpt` on a duplicate-free list of `some` values succeeds and
returns the strictly sorted list of the underlying strings. -/
theorem pySortedOpt_ok (l : List (Option String))
    (hnodup : l.Nodup) (hsome : ∀ o ∈ l, ∃ s, o = some s) :
    ∃ strs : List String, pySortedOpt l = .ok (strs.map some)
      ∧ List.Sorted (fun a b => a < b) strs
      ∧ strs.Nodup
      ∧ ∀ s, s ∈ strs ↔ some s ∈ l := by
  by_cases hlen : l.length ≤ 1
  · rcases l with _ | ⟨o, rest⟩
    · exact ⟨[], by simp [pySortedOpt], List.sorted_nil, List.nodup_nil, by simp⟩
    · rcases rest with _ | ⟨o2, rest2⟩
      · obtain ⟨s, rfl⟩ := hsome o (by simp)
        refine ⟨[s], by simp [pySortedOpt], List.sorted_singleton s,
          List.nodup_singleton s, ?_⟩
        intro t
        simp
      · simp at hlen
  · have hnone : l.any (fun o => o.isNone) = false := by
      rw [List.any_eq_false]
      intro o ho
      obtain ⟨s, rfl⟩ := hsome o ho
      simp
    have heq : pySortedOpt l
        = .ok (((l.filterMap id).insertionSort (fun a b => a ≤ b)).map some) := by
      simp only [pySortedOpt]
      rw [if_neg hlen, hnone]
      simp
    have hsorted : List.Sorted (fun a b : String => a ≤ b)
        ((l.filterMap id).insertionSort (fun a b => a ≤ b)) :=
      List.sorted_insertionSort _ _
    have hinj : ∀ (a a' : Option String) (b : String), b ∈ id a → b ∈ id a' → a = a' := by
      intro a a' b h1 h2
      rw [Option.mem_def] at h1 h2
      exact h1.trans h2.symm
    have hnodupBase : (l.filterMap id).Nodup := List.Nodup.filterMap hinj hnodup
    have hperm := List.perm_insertionSort (fun a b : String => a ≤ b) (l.filterMap id)
    have hnodupSort : ((l.filterMap id).insertionSort (fun a b => a ≤ b)).Nodup :=
      hperm.symm.nodup hnodupBase
    refine ⟨(l.filterMap id).insertionSort (fun a b => a ≤ b), heq, ?_, hnodupSort, ?_⟩
    · exact (hsorted.and hnodupSort).imp (fun hab => lt_of_le_of_ne hab.1 hab.2)
    · intro s
      rw [hperm.mem_iff, List.mem_filterMap]
      constructor
      · rintro ⟨o, ho, hid⟩
        rw [show id o = o from rfl] at hid
        rw [hid] at ho
        exact ho
      · intro hin
        exact ⟨some s, hin, rfl⟩

/-- Every element is bounded by the fold-maximum. -/
theorem le_maxNat {x : Nat} {l : List Nat} (h : x ∈ l) : x ≤ maxNat l := by
  induction l with
  | nil => cases h
  | cons a l ih =>
    rcases List.mem_cons.mp h with rfl | h2
    · exact Nat.le_max_left _ _
    · exact Nat.le_trans (ih h2) (Nat.le_max_right _ _)

/-- On a non-empty list the fold-maximum is attained by some element. -/
theorem maxNat_mem {l : List Nat} (h : l ≠ []) : maxNat l ∈ l := by
  induction l with
  | nil => exact absurd rfl h
  | cons a l ih =>
    by_cases hl : l = []
    · subst hl
      simp [maxNat]
    · have hm := ih hl
      show Nat.max a (maxNat l) ∈ a :: l
      rcases Nat.le_total (maxNat l) a with h1 | h1
      · have heq : Nat.max a (maxNat l) = a := Nat.max_eq_left h1
        rw [heq]
        exact List.mem_cons_self _ _
      · have heq : Nat.max a (maxNat l) = maxNat l := Nat.max_eq_right h1
        rw [heq]
        exact List.mem_cons_of_mem _ hm

/-- Padding a string no longer than the width yields exactly the width. -/
theorem ljust_length {s : String} {w : Nat} (h : s.length ≤ w) (fill : Char) :
    (ljust s w fill).length = w := by
  simp only [ljust, String.length_append, String.length_mk, List.length_replicate]
  omega

/-- A column width of the report: upper bound for every entry and for the
header label, and attained by one of them. -/
theorem col_width_bounds (f : Record → Nat) (hdr : Nat) (records : List Record)
    (h : records ≠ []) :
    (∀ r ∈ records, f r ≤ Nat.max hdr (maxNat (records.map f)))
    ∧ hdr ≤ Nat.max hdr (maxNat (records.map f))
    ∧ (Nat.max hdr (maxNat (records.map f)) = hdr
       ∨ ∃ r ∈ records, Nat.max hdr (maxNat (records.map f)) = f r) := by
  refine ⟨?_, Nat.le_max_left _ _, ?_⟩
  · intro r hr
    exact Nat.le_trans (le_maxNat (List.mem_map_of_mem f hr)) (Nat.le_max_right _ _)
  · rcases Nat.le_total (maxNat (records.map f)) hdr with h1 | h1
    · exact Or.inl (Nat.max_eq_left h1)
    · right
      have hmem := maxNat_mem (l := records.map f) (by simpa using h)
      obtain ⟨r, hr, hfr⟩ := List.mem_map.mp hmem
      exact ⟨r, hr, (Nat.max_eq_right h1).trans hfr.symm⟩

/-- The trailing `" |\n"` literal of each row splits off its final
two-character escape sequence. -/
theorem data_pipe_nl :
    (" |\\n" : String).data = (" |" : String).data ++ ("\\n" : String).data := by
  decide

/-! ## Claim theorems -/

/-- Claim C1 (counterexample): on a user id whose domain part contains a
further `':'`, the code returns the field between the first and second
`':'`, while the spec's words ask for everything after the first `':'`. -/
theorem member_server_two_colons_cex :
    member_server "@a:b:c" = .ok (some "b")
    ∧ member_server_specmodel "@a:b:c" = some "b:c"
    ∧ (some "b" : Option String) ≠ some "b:c" := by
  refine ⟨rfl, by decide, by decide⟩

/-- Claim C1 (amended): `member_server` raises on the empty string;
returns `None` when the first character is not `'@'`; on `'@' ++ l ++
':' ++ d` with `l`, `d` colon-free it returns `d` — also when further
`':' ++ r` text follows, so it yields the field strictly between the
first and second `':'`, not everything after the first `':'`; and it
raises when no `':'` occurs at all. -/
theorem member_server_characterization :
    (member_server "" = .error ())
    ∧ (∀ (s : String) (c : Char) (cs : List Char),
        s.data = c :: cs → c ≠ '@' → member_server s = .ok none)
    ∧ (∀ l d : String, ':' ∉ l.data → ':' ∉ d.data →
        member_server ("@" ++ l ++ ":" ++ d) = .ok (some d))
    ∧ (∀ l d r : String, ':' ∉ l.data → ':' ∉ d.data →
        member_server ("@" ++ l ++ ":" ++ d ++ ":" ++ r) = .ok (some d))
    ∧ (∀ l : String, ':' ∉ l.data → member_server ("@" ++ l) = .error ()) := by
  refine ⟨rfl, ?_, ?_, ?_, ?_⟩
  · intro s c cs hdata hc
    simp only [member_server, hdata]
    simp [hc]
  · intro l d hl hd
    have hdata : ("@" ++ l ++ ":" ++ d).data = '@' :: (l.data ++ ':' :: d.data) := by
      simp [String.data_append]
    have hpre : ':' ∉ '@' :: l.data := by
      intro hm
      rcases List.mem_cons.mp hm with hh | hh
      · exact absurd hh.symm (by decide)
      · exact hl hh
    simp only [member_server, hdata]
    rw [show ('@' :: (l.data ++ ':' :: d.data)) = ('@' :: l.data) ++ ':' :: d.data from rfl,
      pySplit_sep_append ':' _ _ hpre, pySplit_no_sep ':' d.data hd]
    simp
  · intro l d r hl hd
    have hdata : ("@" ++ l ++ ":" ++ d ++ ":" ++ r).data
        = '@' :: (l.data ++ ':' :: (d.data ++ ':' :: r.data)) := by
      simp [String.data_append]
    have hpre : ':' ∉ '@' :: l.data := by
      intro hm
      rcases List.mem_cons.mp hm with hh | hh
      · exact absurd hh.symm (by decide)
      · exact hl hh
    simp only [member_server, hdata]
    rw [show ('@' :: (l.data ++ ':' :: (d.data ++ ':' :: r.data)))
        = ('@' :: l.data) ++ ':' :: (d.data ++ ':' :: r.data) from rfl,
      pySplit_sep_append ':' _ _ hpre,
      pySplit_sep_append ':' d.data r.data hd]
    simp
  · intro l hl
    have hdata : ("@" ++ l).data = '@' :: l.data := by
      simp [String.data_append]
    have hpre : ':' ∉ '@' :: l.data := by
      intro hm
      rcases List.mem_cons.mp hm with hh | hh
      · exact absurd hh.symm (by decide)
      · exact hl hh
    simp only [member_server, hdata]
    rw [pySplit_no_sep ':' _ hpre]
    simp

/-- Claim C1, witness: the characterization applied at concrete user ids,
including one whose domain carries a port-like suffix. -/
theorem member_server_characterization_wit :
    member_server "not-a-user" = .ok none
    ∧ member_server ("@" ++ "alice" ++ ":" ++ "example.org") = .ok (some "example.org")
    ∧ member_server ("@" ++ "alice" ++ ":" ++ "example.org" ++ ":" ++ "8448")
        = .ok (some "example.org")
    ∧ member_server ("@" ++ "alice") = .error () := by
  refine ⟨?_, ?_, ?_, ?_⟩
  · exact member_server_characterization.2.1 "not-a-user" 'n' "ot-a-user".data rfl (by decide)
  · exact member_server_characterization.2.2.1 "alice" "example.org" (by decide) (by decide)
  · exact member_server_characterization.2.2.2.1 "alice" "example.org" "8448"
      (by decide) (by decide)
  · exact member_server_characterization.2.2.2.2 "alice" (by decide)

/-- Claim C7: rendering an empty record sequence does not produce a table:
the maximum-width computation over an empty sequence raises (the
`ValueError` of Python `max` over an empty iterable). -/
theorem serverList_str_empty_raises : serverList_str [] = .error () := rfl

/-- Claim C3 (code bug): the value passed as the request timeout at line 43
is `10000`, not `10`; `requests` interprets it in seconds, so the bound
is 10000 seconds, not the 10 seconds the claim states.  On a timeout the
function does return `'[TIMEOUT]'`, with no retry (the sentinel is
returned immediately). -/
theorem request_timeout_value :
    REQUEST_TIMEOUT = 10000 ∧ REQUEST_TIMEOUT ≠ 10
      ∧ query_homeserver_version FedResponse.timeout = "[TIMEOUT]" :=
  ⟨rfl, by decide, rfl⟩

/-- Claim C2: the sentinel mapping of `query_homeserver_version` is total
and exclusive: every remote outcome falls in exactly one of the four
cases (timeout, federation not OK, version absent, version present),
and in each case exactly the corresponding string is returned. -/
theorem query_homeserver_version_total_exclusive (r : FedResponse) :
    (timeoutCase r ∨ offlineCase r ∨ errorCase r ∨ versionCase r)
    ∧ (timeoutCase r → query_homeserver_version r = "[TIMEOUT]"
        ∧ ¬ offlineCase r ∧ ¬ errorCase r ∧ ¬ versionCase r)
    ∧ (offlineCase r → query_homeserver_version r = "[OFFLINE]"
        ∧ ¬ timeoutCase r ∧ ¬ errorCase r ∧ ¬ versionCase r)
    ∧ (errorCase r → query_homeserver_version r = "[ERROR]"
        ∧ ¬ timeoutCase r ∧ ¬ offlineCase r ∧ ¬ versionCase r)
    ∧ (versionCase r → (∀ v, r = .ok true (some v) → query_homeserver_version r = v)
        ∧ ¬ timeoutCase r ∧ ¬ offlineCase r ∧ ¬ errorCase r) := by
  rcases r with _ | ⟨fed, ver⟩
  · simp [timeoutCase, offlineCase, errorCase, versionCase, query_homeserver_version]
  · rcases fed with _ | _ <;> rcases ver with _ | v <;>
      simp [timeoutCase, offlineCase, errorCase, versionCase, query_homeserver_version]

/-- Claim C2, witness: the theorem applied at a timed-out call and at a
`FederationOK = false` response. -/
theorem query_homeserver_version_total_exclusive_wit :
    query_homeserver_version FedResponse.timeout = "[TIMEOUT]"
    ∧ query_homeserver_version (FedResponse.ok false none) = "[OFFLINE]" := by
  constructor
  · exact ((query_homeserver_version_total_exclusive FedResponse.timeout).2.1 rfl).1
  · exact ((query_homeserver_version_total_exclusive
      (FedResponse.ok false none)).2.2.1 ⟨none, rfl⟩).1

/-- Claim C8: `api_call` returns the empty string on any non-200 status
(after logging) and the body unchanged on status 200; it is a total
function, so it never raises. -/
theorem api_call_status_behavior (m : Matrix) (method url : String)
    (data : Option String) (resp : HttpResponse) :
    (resp.status_code ≠ 200 → (m.api_call method url data resp).2 = "")
    ∧ (resp.status_code = 200 → (m.api_call method url data resp).2 = resp.text) := by
  constructor <;> intro h <;> simp [Matrix.api_call, h]

/-- Claim C8, witness: the theorem applied at a 404 and at a 200 response. -/
theorem api_call_status_behavior_wit :
    ((Matrix.init "https://hs").api_call "GET" "u" none ⟨404, "boom"⟩).2 = ""
    ∧ ((Matrix.init "https://hs").api_call "GET" "u" none ⟨200, "body"⟩).2 = "body" := by
  constructor
  · exact (api_call_status_behavior (Matrix.init "https://hs") "GET" "u" none
      ⟨404, "boom"⟩).1 (by decide)
  · exact (api_call_status_behavior (Matrix.init "https://hs") "GET" "u" none
      ⟨200, "body"⟩).2 rfl

/-- Claim C9: `join_room` sets `room_id` and `room_url` for every HTTP
outcome of the join call (the response is universally quantified, so a
non-200 response changes nothing: `api_call` is total and its result is
discarded), and leaves `token` and `clienturl` untouched. -/
theorem join_room_frame (m : Matrix) (rid : String) (resp : HttpResponse) :
    ((m.join_room rid resp).1.room_id = some rid)
    ∧ ((m.join_room rid resp).1.room_url = some (m.clienturl ++ "/rooms/" ++ rid))
    ∧ ((m.join_room rid resp).1.token = m.token)
    ∧ ((m.join_room rid resp).1.clienturl = m.clienturl) :=
  ⟨rfl, rfl, rfl, rfl⟩

/-- Claim C10: every request built by `api_call` carries exactly the
header `Authorization: Bearer <token>`, and the login credential
submission — which runs through `api_call` while the token field still
holds the `None` sentinel — is sent with the header
`Authorization: Bearer None`, not with no header. -/
theorem api_call_bearer_header (m : Matrix) (method url username password flow : String)
    (data : Option String) (resp : HttpResponse) :
    ((m.api_call method url data resp).1.headers
        = [("Authorization", "Bearer " ++ pyFormat m.token)])
    ∧ (m.token = none →
        (m.login_submit username password flow resp).1.headers
          = [("Authorization", "Bearer None")]) := by
  constructor
  · rfl
  · intro h
    simp [Matrix.login_submit, Matrix.api_call, h, pyFormat]

/-- Claim C4 (counterexample): an identifier not starting with `'@'`
parses to the `None` sentinel, which is not dropped: it stays in the
server set, and sorting the mixed set raises a `TypeError` instead of
yielding the sequence the claim describes. -/
theorem derive_servers_none_not_dropped_cex :
    member_server "not-a-user" = .ok none
    ∧ derive_servers ["not-a-user", "@a:h1"] [] = .error () :=
  ⟨rfl, rfl⟩

/-- Claim C4 (amended): when every member identifier parses to a server
name (starts with `'@'` and contains a `':'`), the derivation step
yields a strictly ascending, duplicate-free sequence of server names
containing no element of the exclusion set. -/
theorem derive_servers_sorted_nodup_excl (members dead_servers : List String)
    (h : ∀ m ∈ members, ∃ s, member_server m = .ok (some s)) :
    ∃ l : List String,
      derive_servers members dead_servers = .ok (l.map some)
      ∧ List.Sorted (fun a b => a < b) l
      ∧ l.Nodup
      ∧ ∀ s ∈ l, s ∉ dead_servers := by
  obtain ⟨ps, hps, hall⟩ := mapMemberServer_ok h
  have hnodup : ((ps.dedup).filter
      (fun o => decide (o ∉ dead_servers.map some))).Nodup :=
    (List.nodup_dedup ps).filter _
  have hsome : ∀ o ∈ (ps.dedup).filter
      (fun o => decide (o ∉ dead_servers.map some)), ∃ s, o = some s :=
    fun o ho => hall o (List.mem_dedup.mp (List.mem_of_mem_filter ho))
  obtain ⟨strs, hsoeq, hsorted, hnd, hmem⟩ := pySortedOpt_ok _ hnodup hsome
  refine ⟨strs, ?_, hsorted, hnd, ?_⟩
  · simp only [derive_servers]
    rw [hps]
    exact hsoeq
  · intro s hs hsd
    have hfil := (hmem s).mp hs
    have hp := List.of_mem_filter hfil
    exact absurd (List.mem_map_of_mem some hsd) (of_decide_eq_true hp)

/-- Claim C4, witness: the amended theorem applied to three members on
two distinct servers with a non-trivial exclusion set. -/
theorem derive_servers_sorted_nodup_excl_wit :
    ∃ l : List String,
      derive_servers ["@b:b.org", "@a:a.org", "@c:b.org"] ["c.org"] = .ok (l.map some)
      ∧ List.Sorted (fun a b => a < b) l
      ∧ l.Nodup
      ∧ ∀ s ∈ l, s ∉ ["c.org"] :=
  derive_servers_sorted_nodup_excl ["@b:b.org", "@a:a.org", "@c:b.org"] ["c.org"] (by
    intro m hm
    simp only [List.mem_cons, List.not_mem_nil, or_false] at hm
    rcases hm with rfl | rfl | rfl
    · exact ⟨"b.org", rfl⟩
    · exact ⟨"a.org", rfl⟩
    · exact ⟨"b.org", rfl⟩)

/-- Claim C5: for a non-empty record sequence the report renders with a
host-column width equal to the maximum of the header label `Homeserver`
and the longest host (bounded and attained), likewise for the version
column against `Version`, and in every data row the host cell is padded
to the host width and the visible version text (version string plus
padding, excluding the hyperlink markup) fills the version width,
matching the header and separator cells. -/
theorem serverList_str_aligned (records : List Record) (h : records ≠ []) :
    ∃ ms mv,
      serverList_str records =
        .ok (headerRow ms mv ++ sepRow ms mv
          ++ String.join (records.map (dataRow ms mv)))
      ∧ (∀ r ∈ records, r.host.length ≤ ms)
      ∧ "Homeserver".length ≤ ms
      ∧ (ms = "Homeserver".length ∨ ∃ r ∈ records, ms = r.host.length)
      ∧ (∀ r ∈ records, r.version.length ≤ mv)
      ∧ "Version".length ≤ mv
      ∧ (mv = "Version".length ∨ ∃ r ∈ records, mv = r.version.length)
      ∧ (ljust "Homeserver" ms ' ').length = ms
      ∧ (ljust "Version" mv ' ').length = mv
      ∧ (ljust "" ms '-').length = ms
      ∧ (ljust "" mv '-').length = mv
      ∧ ∀ r ∈ records, (ljust r.host ms ' ').length = ms
          ∧ r.version.length + (ljust "" (mv - r.version.length) ' ').length = mv := by
  obtain ⟨hhost_le, hhost_hdr, hhost_att⟩ :=
    col_width_bounds (fun r => r.host.length) "Homeserver".length records h
  obtain ⟨hver_le, hver_hdr, hver_att⟩ :=
    col_width_bounds (fun r => r.version.length) "Version".length records h
  rcases records with _ | ⟨r0, rs⟩
  · exact absurd rfl h
  have heq : serverList_str (r0 :: rs) =
      .ok (headerRow
            (Nat.max "Homeserver".length (maxNat ((r0 :: rs).map fun r => r.host.length)))
            (Nat.max "Version".length (maxNat ((r0 :: rs).map fun r => r.version.length)))
        ++ sepRow
            (Nat.max "Homeserver".length (maxNat ((r0 :: rs).map fun r => r.host.length)))
            (Nat.max "Version".length (maxNat ((r0 :: rs).map fun r => r.version.length)))
        ++ String.join ((r0 :: rs).map (dataRow
            (Nat.max "Homeserver".length (maxNat ((r0 :: rs).map fun r => r.host.length)))
            (Nat.max "Version".length
              (maxNat ((r0 :: rs).map fun r => r.version.length)))))) := rfl
  refine ⟨_, _, heq, hhost_le, hhost_hdr, ?_, hver_le, hver_hdr, ?_,
    ljust_length hhost_hdr ' ', ljust_length hver_hdr ' ',
    ljust_length (Nat.zero_le _) '-', ljust_length (Nat.zero_le _) '-', ?_⟩
  · rcases hhost_att with h1 | ⟨r, hr, h1⟩
    · exact Or.inl h1
    · exact Or.inr ⟨r, hr, h1⟩
  · rcases hver_att with h1 | ⟨r, hr, h1⟩
    · exact Or.inl h1
    · exact Or.inr ⟨r, hr, h1⟩
  · intro r hr
    refine ⟨ljust_length (hhost_le r hr) ' ', ?_⟩
    rw [ljust_length (Nat.zero_le _) ' ']
    have := hver_le r hr
    omega

/-- Claim C5, witness: the theorem applied to the two-record report of the
spec's example. -/
theorem serverList_str_aligned_wit :
    ∃ ms mv,
      serverList_str [Record.mk "a.org" "1.0", Record.mk "longhost.example" "2.0"] =
        .ok (headerRow ms mv ++ sepRow ms mv
          ++ String.join ([Record.mk "a.org" "1.0",
              Record.mk "longhost.example" "2.0"].map (dataRow ms mv)))
      ∧ (∀ r ∈ [Record.mk "a.org" "1.0", Record.mk "longhost.example" "2.0"],
          r.host.length ≤ ms)
      ∧ "Homeserver".length ≤ ms
      ∧ (ms = "Homeserver".length
          ∨ ∃ r ∈ [Record.mk "a.org" "1.0", Record.mk "longhost.example" "2.0"],
              ms = r.host.length)
      ∧ (∀ r ∈ [Record.mk "a.org" "1.0", Record.mk "longhost.example" "2.0"],
          r.version.length ≤ mv)
      ∧ "Version".length ≤ mv
      ∧ (mv = "Version".length
          ∨ ∃ r ∈ [Record.mk "a.org" "1.0", Record.mk "longhost.example" "2.0"],
              mv = r.version.length)
      ∧ (ljust "Homeserver" ms ' ').length = ms
      ∧ (ljust "Version" mv ' ').length = mv
      ∧ (ljust "" ms '-').length = ms
      ∧ (ljust "" mv '-').length = mv
      ∧ ∀ r ∈ [Record.mk "a.org" "1.0", Record.mk "longhost.example" "2.0"],
          (ljust r.host ms ' ').length = ms
          ∧ r.version.length + (ljust "" (mv - r.version.length) ' ').length = mv :=
  serverList_str_aligned [Record.mk "a.org" "1.0", Record.mk "longhost.example" "2.0"]
    (by decide)

/-- Claim C6: header, separator, and every data row end with the literal
two-character sequence backslash-`n` (whose characters are `'\\'` and
`'n'`, not a real newline character), and each data row contains its
version rendered as a hyperlink whose href is the federation-tester
base URL concatenated with the host. -/
theorem report_rows_trailing_escape (ms mv : Nat) (r : Record) :
    (∃ p, headerRow ms mv = p ++ "\\n")
    ∧ (∃ p, sepRow ms mv = p ++ "\\n")
    ∧ (∃ p, dataRow ms mv r = p ++ "\\n")
    ∧ ("\\n" : String).data = ['\\', 'n']
    ∧ '\n' ∉ ("\\n" : String).data
    ∧ (∃ p q, dataRow ms mv r
        = p ++ ("<a href=\\\"" ++ (FEDTEST_URL ++ r.host) ++ "\\\">"
            ++ r.version ++ "</a>") ++ q) := by
  refine ⟨⟨"| " ++ ljust "Homeserver" ms ' ' ++ " | " ++ ljust "Version" mv ' ' ++ " |", ?_⟩,
    ⟨"| " ++ ljust "" ms '-' ++ " | " ++ ljust "" mv '-' ++ " |", ?_⟩,
    ⟨"| " ++ ljust r.host ms ' ' ++ " | "
      ++ "<a href=\\\"" ++ FEDTEST_URL ++ r.host ++ "\\\">" ++ r.version ++ "</a>"
      ++ ljust "" (mv - r.version.length) ' ' ++ " |", ?_⟩,
    by decide, by decide,
    ⟨"| " ++ ljust r.host ms ' ' ++ " | ",
      ljust "" (mv - r.version.length) ' ' ++ " |\\n", ?_⟩⟩
  · apply String.ext
    simp [headerRow, String.data_append, List.append_assoc, data_pipe_nl]
  · apply String.ext
    simp [sepRow, String.data_append, List.append_assoc, data_pipe_nl]
  · apply String.ext
    simp [dataRow, String.data_append, List.append_assoc, data_pipe_nl]
  · apply String.ext
    simp [dataRow, String.data_append, List.append_assoc]

/-- Claim C10, witness: the theorem applied to a freshly initialised
session, whose token field is still `none`. -/
theorem api_call_bearer_header_wit :
    ((Matrix.init "https://hs").login_submit "u" "p" "m.login.password"
        ⟨200, "\x7b\x7d"⟩).1.headers
      = [("Authorization", "Bearer None")] :=
  (api_call_bearer_header (Matrix.init "https://hs") "GET" "x" "u" "p"
    "m.login.password" none ⟨200, "\x7b\x7d"⟩).2 rfl

end HomeserverVersionBot
